import Mathlib

/-!
Shallow embedding of `name_interface.go` from the blueprint build system:
the `SimpleNameInterface` flat name registry (register, skip-records, lookup,
rename, sorted enumeration, missing-dependency diagnostics) and theorems
about the properties its specification states.
-/

namespace Blueprint

/-- Go byte-lexicographic comparison on the character lists of two strings.
UTF-8 byte order coincides with code-point order, so comparing the decoded
characters models Go's `<` on `string` faithfully. -/
def charsLt : List Char → List Char → Bool
  | [], [] => false
  | [], _ :: _ => true
  | _ :: _, [] => false
  | a :: as, b :: bs => if a < b then true else if b < a then false else charsLt as bs

/-- Go `<` on strings (byte/lexicographic order). -/
def strLt (a b : String) : Bool := charsLt a.data b.data

/-- Modelled from the spec: `SkippedModuleInfo` is an immutable record of
(originating filename, human-readable reason); the struct itself is declared in
`name_interface.go`. -/
structure SkippedModuleInfo where
  filename : String
  reason : String
deriving DecidableEq

/-- Modelled from the spec: the `moduleGroup` record pointed to by a
`ModuleGroup` handle is declared outside this file. Per the spec it owns a
mutable `name` string and an ordered, non-empty collection of module variants,
whose first-inserted member's source position is retrievable for diagnostics;
we keep the positions of that collection. -/
structure GroupData where
  name : String
  modulePositions : List String
deriving DecidableEq

/-- Modelled from the spec: `group.modules.firstModule().pos`, the source
position of the first module of a group's collection. -/
def firstModulePos (g : GroupData) : String := g.modulePositions.headD ""

/-- A `ModuleGroup` handle is a pointer to a shared mutable `moduleGroup`
record; we model pointers as indices into a heap. -/
abbrev GroupId := Nat

/-- The `SimpleNameInterface` registry state: the two Go maps
(`modules : map[string]ModuleGroup`, `skippedModules : map[string][]SkippedModuleInfo`)
as association lists with unique keys, plus the heap of shared mutable
`moduleGroup` records the `ModuleGroup` values point into. -/
structure SimpleNameInterface where
  heap : GroupId → GroupData
  modules : List (String × GroupId)
  skippedModules : List (String × List SkippedModuleInfo)

/-- `NewSimpleNameInterface`: both maps start empty. -/
def mkSimpleNameInterface (h : GroupId → GroupData) : SimpleNameInterface :=
  { heap := h, modules := [], skippedModules := [] }

/-- Go map read `m[k]`: the value under key `k`, if present. -/
def mapLookup {α : Type} (m : List (String × α)) (k : String) : Option α :=
  match m with
  | [] => none
  | p :: rest => if p.1 = k then some p.2 else mapLookup rest k

/-- Go map write `m[k] = v`: replace the binding of `k`, or add one. -/
def mapInsert {α : Type} (m : List (String × α)) (k : String) (v : α) : List (String × α) :=
  match m with
  | [] => [(k, v)]
  | p :: rest => if p.1 = k then (k, v) :: rest else p :: mapInsert rest k v

/-- Go `delete(m, k)`: drop the binding of `k`. -/
def mapDelete {α : Type} (m : List (String × α)) (k : String) : List (String × α) :=
  m.filter (fun p => p.1 != k)

/-- Go `%q` applied to one character: quote-relevant escapes. The inputs this
development evaluates on are printable and need only the quote and backslash
cases of `strconv.Quote`. -/
def goQuoteChar (c : Char) : String :=
  if c = '"' then "\\\"" else
  if c = '\\' then "\\\\" else
  if c = '\n' then "\\n" else
  if c = '\t' then "\\t" else String.singleton c

/-- Go `%q` applied to a string: the quoted form. -/
def goQuote (str : String) : String :=
  "\"" ++ String.join (str.data.map goQuoteChar) ++ "\""

/-- Go `strings.Join(elems, sep)`. -/
def goJoin (sep : String) : List String → String
  | [] => ""
  | [x] => x
  | x :: xs => x ++ sep ++ goJoin sep xs

/-- Go `%q` applied to a `[]string`, as in `fmt.Sprintf(" Did you mean %q?", guess)`:
each element quoted, space-separated, in brackets. -/
def goQuoteStrList (l : List String) : String :=
  "[" ++ goJoin " " (l.map goQuote) ++ "]"

/-- The error built by `SimpleNameInterface.NewModule` on a duplicate name. -/
def newModuleErr (name pos : String) : String :=
  "module " ++ goQuote name ++ " already defined\n       " ++ pos ++
    " <-- previous definition here"

/-- `SimpleNameInterface.NewModule`: reads `group.name`; if present in
`s.modules` returns the duplicate-definition error citing the existing group's
first module position and leaves the state alone, else inserts. The returned
namespace is always `nil` (`none`). -/
def newModule (s : SimpleNameInterface) (group : GroupId) :
    Option Unit × List String × SimpleNameInterface :=
  match mapLookup s.modules ((s.heap group).name) with
  | some prev =>
      (none, [newModuleErr ((s.heap group).name) (firstModulePos (s.heap prev))], s)
  | none =>
      (none, [], { s with modules := mapInsert s.modules ((s.heap group).name) group })

/-- `SimpleNameInterface.NewSkippedModule`: no-op on the empty name, else
appends the record to the name's slice. -/
def newSkippedModule (s : SimpleNameInterface) (name : String)
    (info : SkippedModuleInfo) : SimpleNameInterface :=
  if name = "" then s
  else
    let appended := (mapLookup s.skippedModules name).getD [] ++ [info]
    { s with skippedModules := mapInsert s.skippedModules name appended }

/-- `SimpleNameInterface.ModuleFromName`: plain map lookup; `none` models
`found = false`. -/
def moduleFromName (s : SimpleNameInterface) (moduleName : String) : Option GroupId :=
  mapLookup s.modules moduleName

/-- `SimpleNameInterface.SkippedModuleFromName`: plain map lookup; `none`
models `skipped = false`. -/
def skippedModuleFromName (s : SimpleNameInterface) (moduleName : String) :
    Option (List SkippedModuleInfo) :=
  mapLookup s.skippedModules moduleName

/-- The error built by `SimpleNameInterface.Rename` when the target name is
already registered. -/
def renameConflictErr (oldName newName pos : String) : String :=
  "renaming module " ++ goQuote oldName ++ " to " ++ goQuote newName ++
    " conflicts with existing module\n       " ++ pos ++
    " <-- existing module defined here"

/-- The error built by `SimpleNameInterface.Rename` when the source name is
not registered. -/
def renameMissingErr (oldName newName : String) : String :=
  "module " ++ goQuote oldName ++ " to renamed to " ++ goQuote newName ++
    " doesn\x27t exist"

/-- `SimpleNameInterface.Rename`: fail if `newName` is taken (citing the
existing group's first-module position) or `oldName` is absent; otherwise
insert under `newName`, delete the key `group.name`, then mutate the shared
group record's name to `newName` (the Go statement order). -/
def rename (s : SimpleNameInterface) (oldName newName : String) :
    List String × SimpleNameInterface :=
  match mapLookup s.modules newName with
  | some existingGroup =>
      ([renameConflictErr oldName newName (firstModulePos (s.heap existingGroup))], s)
  | none =>
      match mapLookup s.modules oldName with
      | none => ([renameMissingErr oldName newName], s)
      | some group =>
          ([], { s with
                  modules := mapDelete (mapInsert s.modules newName group)
                    ((s.heap group).name),
                  heap := fun i =>
                    if i = group then { s.heap i with name := newName } else s.heap i })

/-- The `less` closure of `SimpleNameInterface.AllModules`: compares two
groups' names with Go `<` and records the name in `duplicateName` when the two
are equal. -/
def lessDup (heap : GroupId → GroupData) (dup : String) (i j : GroupId) :
    Bool × String :=
  (strLt ((heap i).name) ((heap j).name),
    if (heap i).name = (heap j).name then (heap i).name else dup)

/-- One insertion step of the sort run by `AllModules`, threading the
`duplicateName` cell mutated by the `less` closure. -/
def insertSorted (heap : GroupId → GroupData) (x : GroupId) :
    List GroupId → String → List GroupId × String
  | [], dup => ([x], dup)
  | y :: ys, dup =>
      let r := lessDup heap dup x y
      if r.1 then (x :: y :: ys, r.2)
      else
        let rest := insertSorted heap x ys r.2
        (y :: rest.1, rest.2)

/-- The sort `AllModules` runs via `sort.Slice` (insertion sort, which Go uses
at these slice lengths), threading the `duplicateName` cell through every
comparison made by the `less` closure. -/
def sortLoop (heap : GroupId → GroupData) :
    List GroupId → List GroupId → String → List GroupId × String
  | [], acc, dup => (acc, dup)
  | x :: xs, acc, dup =>
      let r := insertSorted heap x acc dup
      sortLoop heap xs r.1 r.2

/-- `SimpleNameInterface.AllModules`: collect the map's values, sort by name
recording `duplicateName`, and panic (modelled as `Except.error`) when
`duplicateName != ""` at the end. -/
def allModules (s : SimpleNameInterface) : Except String (List GroupId) :=
  let groups := s.modules.map (fun p => p.2)
  let r := sortLoop s.heap groups [] ""
  if r.2 ≠ "" then Except.error ("Duplicate moduleGroup name " ++ goQuote r.2)
  else Except.ok r.1

/-- `SimpleNameInterface.MissingDependencyError`: branch on whether the
missing name has skip records; list files (joined with a comma) and reasons
(joined with a semicolon) when it does, else an undefined-module message with
an optional did-you-mean clause. -/
def missingDependencyError (s : SimpleNameInterface)
    (depender dependency : String) (guess : List String) : String :=
  match skippedModuleFromName s dependency with
  | some skipInfos =>
      "module " ++ goQuote depender ++ " depends on skipped module " ++
        goQuote dependency ++ "; " ++ goQuote dependency ++
        " was defined in files(s) [" ++
        goJoin ", " (skipInfos.map (fun i => i.filename)) ++
        "], but was skipped for reason(s) [" ++
        goJoin "; " (skipInfos.map (fun i => i.reason)) ++ "]"
  | none =>
      let guessString :=
        if guess.length > 0 then " Did you mean " ++ goQuoteStrList guess ++ "?" else ""
      goQuote depender ++ " depends on undefined module " ++ goQuote dependency ++
        "." ++ guessString

/-- `SimpleNameInterface.UniqueName`: the identity. -/
def uniqueName (_s : SimpleNameInterface) (name : String) : String := name

/-- Registering a whole list of groups in order, as the graph-construction
driver does; the boolean records whether every call returned no errors. -/
def registerList (s : SimpleNameInterface) : List GroupId → SimpleNameInterface × Bool
  | [] => (s, true)
  | g :: gs =>
      let r := newModule s g
      let rest := registerList r.2.2 gs
      (rest.1, r.2.1.isEmpty && rest.2)

/-- Well-formedness of a registry: map keys are distinct and each entry's key
is its group's current name. `NewModule` and `Rename` maintain this. -/
def Wf (s : SimpleNameInterface) : Prop :=
  (s.modules.map (fun p => p.1)).Nodup ∧ ∀ p ∈ s.modules, (s.heap p.2).name = p.1

instance instDecidableWf (s : SimpleNameInterface) : Decidable (Wf s) := by
  unfold Wf
  infer_instance

/-- The names of the groups a list of handles points to. -/
def heapNames (heap : GroupId → GroupData) (l : List GroupId) : List String :=
  l.map (fun g => (heap g).name)

/-- The multiset of group names stored in the registry's `modules` map. -/
def storedNames (s : SimpleNameInterface) : List String :=
  heapNames s.heap (s.modules.map (fun p => p.2))

/-- Ascending-by-name order on group handles: no later element's name is
`<` an earlier one's (the invariant the insertion sort maintains; equal names
are allowed here, the strict version is derived for duplicate-free inputs). -/
def SortedByName (heap : GroupId → GroupData) (l : List GroupId) : Prop :=
  l.Pairwise (fun i j => strLt ((heap j).name) ((heap i).name) = false)

/-- A corrupted storage state: two live groups (under distinct map keys, as a
Go map forces) both named the empty string. Unreachable through the API, but
the enumeration claim quantifies over storage states. -/
def dupStateEmpty : SimpleNameInterface :=
  { heap := fun i => if i = 0 then ⟨ "", [ "posA" ] ⟩ else ⟨ "", [ "posB" ] ⟩,
    modules := [( "a", 0), ( "b", 1)],
    skippedModules := [] }

/-- A corrupted storage state with two live groups both named `x`. -/
def dupStateX : SimpleNameInterface :=
  { heap := fun i => if i = 0 then ⟨ "x", [ "posA" ] ⟩ else ⟨ "x", [ "posB" ] ⟩,
    modules := [( "a", 0), ( "b", 1)],
    skippedModules := [] }

/-- A concrete heap of group records used to evaluate the theorems: groups 0
and 1 both named `alpha` (defined in different files), further distinct
names. -/
def wHeap : GroupId → GroupData := fun i =>
  if i = 0 then ⟨ "alpha", [ "fileA.bp:3" ] ⟩
  else if i = 1 then ⟨ "alpha", [ "fileB.bp:7" ] ⟩
  else if i = 2 then ⟨ "zeta", [ "fileC.bp:1" ] ⟩
  else if i = 3 then ⟨ "mu", [ "fileD.bp:2" ] ⟩
  else if i = 4 then ⟨ "", [ "fileE.bp:5" ] ⟩
  else ⟨ "", [] ⟩

/-- The empty registry over `wHeap`. -/
def wState : SimpleNameInterface := mkSimpleNameInterface wHeap

/-- The registry after registering group 0 (`alpha`). -/
def wState1 : SimpleNameInterface := (newModule wState 0).2.2

/-- The registry after additionally registering group 2 (`zeta`). -/
def wState2 : SimpleNameInterface := (newModule wState1 2).2.2

/-- A concrete skip record. -/
def wInfo : SkippedModuleInfo := ⟨ "fileA.bp", "license" ⟩

/-- A second concrete skip record. -/
def wInfo2 : SkippedModuleInfo := ⟨ "fileB.bp", "platform mismatch" ⟩

/-- A registry in which `libfoo` carries the two skip records of the spec's
example. -/
def wSkipState : SimpleNameInterface :=
  newSkippedModule (newSkippedModule wState "libfoo" wInfo) "libfoo" wInfo2

theorem mapLookup_insert_self {α : Type} (m : List (String × α)) (k : String) (v : α) :
    mapLookup (mapInsert m k v) k = some v := by
  induction m with
  | nil => simp [mapInsert, mapLookup]
  | cons p rest ih =>
      by_cases h : p.1 = k
      · simp [mapInsert, h, mapLookup]
      · simp [mapInsert, h, mapLookup, ih]

theorem mapLookup_insert_ne {α : Type} (m : List (String × α)) (k k2 : String) (v : α)
    (h : k2 ≠ k) : mapLookup (mapInsert m k v) k2 = mapLookup m k2 := by
  have hk : ¬ k = k2 := fun hh => h hh.symm
  induction m with
  | nil => simp [mapInsert, mapLookup, hk]
  | cons p rest ih =>
      by_cases hp : p.1 = k
      · subst hp
        simp [mapInsert, mapLookup, hk]
      · simp [mapInsert, hp, mapLookup, ih]

theorem mapLookup_delete_self {α : Type} (m : List (String × α)) (k : String) :
    mapLookup (mapDelete m k) k = none := by
  induction m with
  | nil => simp [mapDelete, mapLookup]
  | cons p rest ih =>
      by_cases h : p.1 = k
      · simpa [mapDelete, List.filter_cons, h] using ih
      · simpa [mapDelete, List.filter_cons, h, mapLookup] using ih

theorem mapLookup_delete_ne {α : Type} (m : List (String × α)) (k k2 : String)
    (h : k2 ≠ k) : mapLookup (mapDelete m k) k2 = mapLookup m k2 := by
  have hk2 : ¬ k = k2 := fun hh => h hh.symm
  induction m with
  | nil => simp [mapDelete, mapLookup]
  | cons p rest ih =>
      by_cases hp : p.1 = k
      · have hp2 : ¬ p.1 = k2 := by
          rw [hp]
          exact hk2
        simp only [mapDelete, List.filter_cons] at ih ⊢
        simp [hp, hp2, hk2, mapLookup, ih]
      · simp only [mapDelete, List.filter_cons] at ih ⊢
        by_cases hq : p.1 = k2
        · simp [hp, hq, h, mapLookup, ih]
        · simp [hp, hq, mapLookup, ih]

theorem mapInsert_not_mem {α : Type} (m : List (String × α)) (k : String) (v : α)
    (h : mapLookup m k = none) : mapInsert m k v = m ++ [(k, v)] := by
  induction m with
  | nil => rfl
  | cons p rest ih =>
      by_cases hp : p.1 = k
      · simp [mapLookup, hp] at h
      · simp only [mapLookup, hp, if_neg hp] at h
        simp [mapInsert, hp, ih h]

theorem mapLookup_none_iff {α : Type} (m : List (String × α)) (k : String) :
    mapLookup m k = none ↔ k ∉ m.map (fun p => p.1) := by
  induction m with
  | nil => simp [mapLookup]
  | cons p rest ih =>
      by_cases hp : p.1 = k
      · simp [mapLookup, hp]
      · have hk : ¬ k = p.1 := fun hh => hp hh.symm
        simp [mapLookup, hp, ih, hk]

theorem mapLookup_mem {α : Type} (m : List (String × α)) (k : String) (v : α)
    (h : mapLookup m k = some v) : (k, v) ∈ m := by
  induction m with
  | nil => simp [mapLookup] at h
  | cons p rest ih =>
      by_cases hp : p.1 = k
      · simp only [mapLookup, if_pos hp] at h
        have hv : p.2 = v := Option.some.inj h
        have hpkv : p = (k, v) := by
          cases p
          simp_all
        rw [← hpkv]
        exact List.mem_cons_self _ _
      · simp only [mapLookup, if_neg hp] at h
        exact List.mem_cons_of_mem _ (ih h)

/-- C1: registering an already-registered name fails with an error citing the
first-module position of the existing group, and the registry (both maps, the
heap, and with it the group registered by the first call) is exactly
unchanged. -/
theorem newModule_duplicate_fails (s : SimpleNameInterface) (g prev : GroupId)
    (h : mapLookup s.modules ((s.heap g).name) = some prev) :
    (newModule s g).2.1 ≠ [] ∧
    (∃ pre post, (newModule s g).2.1 =
      [pre ++ firstModulePos (s.heap prev) ++ post]) ∧
    (newModule s g).2.2 = s := by
  unfold newModule
  rw [h]
  refine ⟨by simp, ?_, rfl⟩
  exact ⟨ "module " ++ goQuote ((s.heap g).name) ++ " already defined\n       ",
    " <-- previous definition here", rfl⟩

/-- C1 witness: registering a second group named `alpha` fails and leaves the
registry untouched. -/
theorem newModule_duplicate_fails_witness :
    (newModule wState1 1).2.1 ≠ [] ∧
    (∃ pre post, (newModule wState1 1).2.1 =
      [pre ++ firstModulePos (wState1.heap 0) ++ post]) ∧
    (newModule wState1 1).2.2 = wState1 :=
  newModule_duplicate_fails wState1 1 0 (by decide)

/-- C2: registering a fresh name returns no errors and a nil namespace, and a
subsequent lookup of that name finds the registered group. -/
theorem newModule_fresh_succeeds (s : SimpleNameInterface) (g : GroupId)
    (h : mapLookup s.modules ((s.heap g).name) = none) :
    (newModule s g).1 = none ∧ (newModule s g).2.1 = [] ∧
    moduleFromName (newModule s g).2.2 ((s.heap g).name) = some g := by
  unfold newModule
  rw [h]
  exact ⟨rfl, rfl, mapLookup_insert_self _ _ _⟩

/-- C2 witness: registering `alpha` into the empty registry succeeds and is
found again. -/
theorem newModule_fresh_succeeds_witness :
    (newModule wState 0).1 = none ∧ (newModule wState 0).2.1 = [] ∧
    moduleFromName (newModule wState 0).2.2 ((wState.heap 0).name) = some 0 :=
  newModule_fresh_succeeds wState 0 (by decide)

/-- C3: renaming a registered `a` to an unregistered `b` (with `a ≠ b`)
succeeds; afterward lookup of `a` fails, lookup of `b` returns the original
group, and the shared group record's name field equals `b` — so in the
resulting registry exactly one of the two names maps to the group. `rename`
is a single state transformation, so no intermediate registry is
observable. -/
theorem rename_success (s : SimpleNameInterface) (a b : String) (g : GroupId)
    (hwf : Wf s) (ha : mapLookup s.modules a = some g)
    (hb : mapLookup s.modules b = none) (hab : a ≠ b) :
    (rename s a b).1 = [] ∧
    moduleFromName (rename s a b).2 a = none ∧
    moduleFromName (rename s a b).2 b = some g ∧
    ((rename s a b).2.heap g).name = b := by
  have hname : (s.heap g).name = a := hwf.2 (a, g) (mapLookup_mem _ _ _ ha)
  have hr : rename s a b =
      ([], { s with
        modules := mapDelete (mapInsert s.modules b g) ((s.heap g).name),
        heap := fun i => if i = g then { s.heap i with name := b } else s.heap i }) := by
    unfold rename
    rw [hb, ha]
  rw [hr]
  refine ⟨rfl, ?_, ?_, by simp⟩
  · show mapLookup (mapDelete (mapInsert s.modules b g) ((s.heap g).name)) a = none
    rw [hname]
    exact mapLookup_delete_self _ _
  · show mapLookup (mapDelete (mapInsert s.modules b g) ((s.heap g).name)) b = some g
    rw [hname]
    rw [mapLookup_delete_ne _ _ _ (fun hh => hab hh.symm)]
    exact mapLookup_insert_self _ _ _

/-- C3 witness: renaming `zeta` to `mu` in the registry holding `alpha` and
`zeta`. -/
theorem rename_success_witness :
    (rename wState2 "zeta" "mu").1 = [] ∧
    moduleFromName (rename wState2 "zeta" "mu").2 "zeta" = none ∧
    moduleFromName (rename wState2 "zeta" "mu").2 "mu" = some 2 ∧
    ((rename wState2 "zeta" "mu").2.heap 2).name = "mu" :=
  rename_success wState2 "zeta" "mu" 2 (by decide) (by decide) (by decide) (by decide)

/-- C4: a failing rename — target name taken, or source name absent — returns
a non-empty error list and leaves the registry state (so every mapping and
every group's name field) exactly as before; the conflict error cites the
existing definition's first-module position and the other case is the
does-not-exist error. -/
theorem rename_fail_unchanged (s : SimpleNameInterface) (oldName newName : String)
    (h : (∃ g0, mapLookup s.modules newName = some g0) ∨
      (mapLookup s.modules newName = none ∧ mapLookup s.modules oldName = none)) :
    (rename s oldName newName).1 ≠ [] ∧ (rename s oldName newName).2 = s ∧
    (∀ g0, mapLookup s.modules newName = some g0 →
      ∃ pre post, (rename s oldName newName).1 =
        [pre ++ firstModulePos (s.heap g0) ++ post]) ∧
    (mapLookup s.modules newName = none → mapLookup s.modules oldName = none →
      (rename s oldName newName).1 =
        [ "module " ++ goQuote oldName ++ " to renamed to " ++ goQuote newName ++
          " doesn\x27t exist" ]) := by
  rcases h with ⟨g0, hg⟩ | ⟨hn, ho⟩
  · have hr : rename s oldName newName =
        ([renameConflictErr oldName newName (firstModulePos (s.heap g0))], s) := by
      unfold rename
      rw [hg]
    rw [hr]
    refine ⟨by simp, rfl, ?_, ?_⟩
    · intro g1 hg1
      rw [hg] at hg1
      cases Option.some.inj hg1
      exact ⟨ "renaming module " ++ goQuote oldName ++ " to " ++ goQuote newName ++
        " conflicts with existing module\n       ", " <-- existing module defined here", rfl⟩
    · intro hn _
      rw [hg] at hn
      cases hn
  · have hr : rename s oldName newName = ([renameMissingErr oldName newName], s) := by
      unfold rename
      rw [hn, ho]
    rw [hr]
    refine ⟨by simp, rfl, ?_, fun _ _ => rfl⟩
    intro g1 hg1
    rw [hn] at hg1
    cases hg1

/-- C4 witness: renaming `zeta` onto the registered name `alpha` fails and
changes nothing. -/
theorem rename_fail_unchanged_witness :
    (rename wState2 "zeta" "alpha").1 ≠ [] ∧ (rename wState2 "zeta" "alpha").2 = wState2 ∧
    (∀ g0, mapLookup wState2.modules "alpha" = some g0 →
      ∃ pre post, (rename wState2 "zeta" "alpha").1 =
        [pre ++ firstModulePos (wState2.heap g0) ++ post]) ∧
    (mapLookup wState2.modules "alpha" = none → mapLookup wState2.modules "zeta" = none →
      (rename wState2 "zeta" "alpha").1 =
        [ "module " ++ goQuote "zeta" ++ " to renamed to " ++ goQuote "alpha" ++
          " doesn\x27t exist" ]) :=
  rename_fail_unchanged wState2 "zeta" "alpha" (Or.inl ⟨0, by decide⟩)

/-- C8: `NewSkippedModule` never fails; with the empty name it is a no-op (no
record stored, a subsequent skipped-lookup of `""` still finds nothing); with
a non-empty name it appends the record at the end of that name's existing
sequence and leaves every other name's records and the module map in place. -/
theorem newSkippedModule_spec (s : SimpleNameInterface) (info : SkippedModuleInfo) :
    newSkippedModule s "" info = s ∧
    (mapLookup s.skippedModules "" = none →
      skippedModuleFromName (newSkippedModule s "" info) "" = none) ∧
    ∀ name, name ≠ "" →
      mapLookup (newSkippedModule s name info).skippedModules name =
        some ((mapLookup s.skippedModules name).getD [] ++ [info]) ∧
      (∀ other, other ≠ name →
        mapLookup (newSkippedModule s name info).skippedModules other =
          mapLookup s.skippedModules other) ∧
      (newSkippedModule s name info).modules = s.modules := by
  refine ⟨by simp [newSkippedModule], ?_, ?_⟩
  · intro h
    simp [newSkippedModule, skippedModuleFromName, h]
  · intro name hn
    refine ⟨?_, ?_, ?_⟩
    · simp only [newSkippedModule, if_neg hn]
      exact mapLookup_insert_self _ _ _
    · intro other ho
      simp only [newSkippedModule, if_neg hn]
      exact mapLookup_insert_ne _ _ _ _ ho
    · simp [newSkippedModule, hn]

/-- C8 witness: skipping under the empty name is a no-op on the empty
registry; skipping `gamma` stores the record. -/
theorem newSkippedModule_spec_witness :
    newSkippedModule wState "" wInfo = wState ∧
    skippedModuleFromName (newSkippedModule wState "" wInfo) "" = none ∧
    mapLookup (newSkippedModule wState "gamma" wInfo).skippedModules "gamma" =
      some ((mapLookup wState.skippedModules "gamma").getD [] ++ [wInfo]) :=
  ⟨(newSkippedModule_spec wState wInfo).1,
    (newSkippedModule_spec wState wInfo).2.1 (by decide),
    ((newSkippedModule_spec wState wInfo).2.2 "gamma" (by decide)).1⟩

/-- C9: renaming a registered name to itself is rejected with the
target-already-registered conflict error and the registry is unchanged; a
self-rename is never a successful no-op. -/
theorem rename_self_fails (s : SimpleNameInterface) (n : String) (g : GroupId)
    (h : mapLookup s.modules n = some g) :
    (rename s n n).1 =
      [ "renaming module " ++ goQuote n ++ " to " ++ goQuote n ++
        " conflicts with existing module\n       " ++ firstModulePos (s.heap g) ++
        " <-- existing module defined here" ] ∧
    (rename s n n).1 ≠ [] ∧ (rename s n n).2 = s := by
  have hr : rename s n n = ([renameConflictErr n n (firstModulePos (s.heap g))], s) := by
    unfold rename
    rw [h]
  rw [hr]
  exact ⟨rfl, by simp, rfl⟩

/-- C9 witness: the self-rename of `alpha`. -/
theorem rename_self_fails_witness :
    (rename wState1 "alpha" "alpha").1 =
      [ "renaming module " ++ goQuote "alpha" ++ " to " ++ goQuote "alpha" ++
        " conflicts with existing module\n       " ++ firstModulePos (wState1.heap 0) ++
        " <-- existing module defined here" ] ∧
    (rename wState1 "alpha" "alpha").1 ≠ [] ∧ (rename wState1 "alpha" "alpha").2 = wState1 :=
  rename_self_fails wState1 "alpha" 0 (by decide)

/-- C10: `NewModule` does not reject the empty name: a group named `""`
registers without errors when `""` is free, a subsequent lookup of `""` finds
it — in contrast to `NewSkippedModule`, which ignores the empty name. -/
theorem newModule_empty_name (s : SimpleNameInterface) (g : GroupId)
    (hname : (s.heap g).name = "") (h : mapLookup s.modules "" = none) :
    (newModule s g).2.1 = [] ∧
    moduleFromName (newModule s g).2.2 "" = some g ∧
    ∀ info, newSkippedModule s "" info = s := by
  unfold newModule
  rw [hname, h]
  exact ⟨rfl, mapLookup_insert_self _ _ _, fun info => by simp [newSkippedModule]⟩

/-- C10 witness: registering group 4, whose name is empty, into the empty
registry. -/
theorem newModule_empty_name_witness :
    (newModule wState 4).2.1 = [] ∧
    moduleFromName (newModule wState 4).2.2 "" = some 4 ∧
    ∀ info, newSkippedModule wState "" info = wState :=
  newModule_empty_name wState 4 (by decide) (by decide)

theorem sub_append_right (a pre x post b : String) (h : a = pre ++ x ++ post) :
    ∃ p q, a ++ b = p ++ x ++ q :=
  ⟨pre, post ++ b, by simp [h, String.append_assoc]⟩

theorem sub_append_left (a pre x post b : String) (h : a = pre ++ x ++ post) :
    ∃ p q, b ++ a = p ++ x ++ q :=
  ⟨b ++ pre, post, by simp [h, String.append_assoc]⟩

theorem goJoin_sub (sep : String) (l : List String) (x : String) (hx : x ∈ l) :
    ∃ p q, goJoin sep l = p ++ x ++ q := by
  induction l with
  | nil => cases hx
  | cons y ys ih =>
      cases ys with
      | nil =>
          have hxy : x = y := by simpa using hx
          subst hxy
          exact ⟨ "", "", by simp [goJoin]⟩
      | cons z zs =>
          rcases List.mem_cons.mp hx with hxy | hmem
          · subst hxy
            exact ⟨ "", sep ++ goJoin sep (z :: zs), by simp [goJoin, String.append_assoc]⟩
          · obtain ⟨p, q, hpq⟩ := ih hmem
            exact ⟨y ++ sep ++ p, q, by simp [goJoin, hpq, String.append_assoc]⟩

/-- C7: `MissingDependencyError` branches on the skip records. With records
the message lists the files (joined with a comma delimiter) and the reasons
(joined with a semicolon delimiter), mentioning every contributing filename
and every reason; without records it is the undefined-module message, to which
a did-you-mean clause quoting the suggestions is appended exactly when at
least one suggestion is supplied. -/
theorem missingDependencyError_spec (s : SimpleNameInterface)
    (depender dependency : String) (guess : List String) :
    (∀ infos, mapLookup s.skippedModules dependency = some infos →
      missingDependencyError s depender dependency guess =
        "module " ++ goQuote depender ++ " depends on skipped module " ++
          goQuote dependency ++ "; " ++ goQuote dependency ++
          " was defined in files(s) [" ++
          goJoin ", " (infos.map (fun i => i.filename)) ++
          "], but was skipped for reason(s) [" ++
          goJoin "; " (infos.map (fun i => i.reason)) ++ "]" ∧
      ∀ info ∈ infos,
        (∃ p q, missingDependencyError s depender dependency guess =
          p ++ info.filename ++ q) ∧
        (∃ p q, missingDependencyError s depender dependency guess =
          p ++ info.reason ++ q)) ∧
    (mapLookup s.skippedModules dependency = none → guess = [] →
      missingDependencyError s depender dependency guess =
        goQuote depender ++ " depends on undefined module " ++ goQuote dependency ++
          ".") ∧
    (mapLookup s.skippedModules dependency = none → guess ≠ [] →
      missingDependencyError s depender dependency guess =
        goQuote depender ++ " depends on undefined module " ++ goQuote dependency ++
          "." ++ (" Did you mean " ++ ("[" ++ goJoin " " (guess.map goQuote) ++ "]") ++
            "?") ∧
      ∀ x ∈ guess, ∃ p q,
        missingDependencyError s depender dependency guess = p ++ goQuote x ++ q) := by
  refine ⟨?_, ?_, ?_⟩
  · intro infos hi
    have hmsg : missingDependencyError s depender dependency guess =
        "module " ++ goQuote depender ++ " depends on skipped module " ++
          goQuote dependency ++ "; " ++ goQuote dependency ++
          " was defined in files(s) [" ++
          goJoin ", " (infos.map (fun i => i.filename)) ++
          "], but was skipped for reason(s) [" ++
          goJoin "; " (infos.map (fun i => i.reason)) ++ "]" := by
      unfold missingDependencyError skippedModuleFromName
      rw [hi]
    refine ⟨hmsg, ?_⟩
    intro info hinfo
    constructor
    · obtain ⟨p1, q1, h1⟩ := goJoin_sub ", " (infos.map (fun i => i.filename))
        info.filename (List.mem_map_of_mem _ hinfo)
      obtain ⟨p2, q2, h2⟩ := sub_append_left _ _ _ _
        ( "module " ++ goQuote depender ++ " depends on skipped module " ++
          goQuote dependency ++ "; " ++ goQuote dependency ++
          " was defined in files(s) [" ) h1
      obtain ⟨p3, q3, h3⟩ := sub_append_right _ _ _ _
        "], but was skipped for reason(s) [" h2
      obtain ⟨p4, q4, h4⟩ := sub_append_right _ _ _ _
        (goJoin "; " (infos.map (fun i => i.reason))) h3
      obtain ⟨p5, q5, h5⟩ := sub_append_right _ _ _ _ "]" h4
      exact ⟨p5, q5, by rw [hmsg]; exact h5⟩
    · obtain ⟨p1, q1, h1⟩ := goJoin_sub "; " (infos.map (fun i => i.reason))
        info.reason (List.mem_map_of_mem _ hinfo)
      obtain ⟨p2, q2, h2⟩ := sub_append_left _ _ _ _
        ( "module " ++ goQuote depender ++ " depends on skipped module " ++
          goQuote dependency ++ "; " ++ goQuote dependency ++
          " was defined in files(s) [" ++
          goJoin ", " (infos.map (fun i => i.filename)) ++
          "], but was skipped for reason(s) [" ) h1
      obtain ⟨p3, q3, h3⟩ := sub_append_right _ _ _ _ "]" h2
      exact ⟨p3, q3, by rw [hmsg]; exact h3⟩
  · intro h hg
    subst hg
    unfold missingDependencyError skippedModuleFromName
    rw [h]
    simp
  · intro h hg
    have hlen : guess.length > 0 := List.length_pos.mpr hg
    have hmsg : missingDependencyError s depender dependency guess =
        goQuote depender ++ " depends on undefined module " ++ goQuote dependency ++
          "." ++ (" Did you mean " ++ ("[" ++ goJoin " " (guess.map goQuote) ++ "]") ++
            "?") := by
      unfold missingDependencyError skippedModuleFromName goQuoteStrList
      rw [h]
      simp only [if_pos hlen]
    refine ⟨hmsg, ?_⟩
    intro x hxg
    obtain ⟨p1, q1, h1⟩ := goJoin_sub " " (guess.map goQuote) (goQuote x)
      (List.mem_map_of_mem _ hxg)
    obtain ⟨p2, q2, h2⟩ := sub_append_left _ _ _ _ "[" h1
    obtain ⟨p3, q3, h3⟩ := sub_append_right _ _ _ _ "]" h2
    obtain ⟨p4, q4, h4⟩ := sub_append_left _ _ _ _ " Did you mean " h3
    obtain ⟨p5, q5, h5⟩ := sub_append_right _ _ _ _ "?" h4
    obtain ⟨p6, q6, h6⟩ := sub_append_left _ _ _ _
      (goQuote depender ++ " depends on undefined module " ++ goQuote dependency ++ ".") h5
    exact ⟨p6, q6, by rw [hmsg]; exact h6⟩

/-- C7 witness: the spec's example — two skip records for `libfoo` produce a
message quoting both files and both reasons; an unknown `libbar` with no
suggestions yields only the undefined-module message; suggestions produce a
did-you-mean clause. -/
theorem missingDependencyError_spec_witness :
    missingDependencyError wSkipState "mymod" "libfoo" [] =
      "module " ++ goQuote "mymod" ++ " depends on skipped module " ++
        goQuote "libfoo" ++ "; " ++ goQuote "libfoo" ++
        " was defined in files(s) [" ++
        goJoin ", " ([wInfo, wInfo2].map (fun i => i.filename)) ++
        "], but was skipped for reason(s) [" ++
        goJoin "; " ([wInfo, wInfo2].map (fun i => i.reason)) ++ "]" ∧
    missingDependencyError wState "mymod" "libbar" [] =
      goQuote "mymod" ++ " depends on undefined module " ++ goQuote "libbar" ++ "." ∧
    missingDependencyError wState "mymod" "libbar" [ "alpha", "alpah" ] =
      goQuote "mymod" ++ " depends on undefined module " ++ goQuote "libbar" ++
        "." ++ (" Did you mean " ++
          ("[" ++ goJoin " " ([ "alpha", "alpah" ].map goQuote) ++ "]") ++ "?") :=
  ⟨((missingDependencyError_spec wSkipState "mymod" "libfoo" []).1
      [wInfo, wInfo2] (by decide)).1,
    (missingDependencyError_spec wState "mymod" "libbar" []).2.1 (by decide) rfl,
    ((missingDependencyError_spec wState "mymod" "libbar" [ "alpha", "alpah" ]).2.2
      (by decide) (by decide)).1⟩

theorem charsLt_irrefl (a : List Char) : charsLt a a = false := by
  induction a with
  | nil => rfl
  | cons c cs ih => simp [charsLt, ih]

theorem charsLt_cons_iff (x y : Char) (xs ys : List Char) :
    charsLt (x :: xs) (y :: ys) = true ↔ x < y ∨ (x = y ∧ charsLt xs ys = true) := by
  by_cases h1 : x < y
  · simp [charsLt, h1]
  · by_cases h2 : y < x
    · have hne : x ≠ y := ne_of_gt h2
      simp [charsLt, h1, h2, hne]
    · have hxy : x = y := le_antisymm (not_lt.mp h2) (not_lt.mp h1)
      simp [charsLt, h1, h2, hxy]

theorem charsLt_asymm (a b : List Char) (h : charsLt a b = true) : charsLt b a = false := by
  induction a generalizing b with
  | nil =>
      cases b with
      | nil => simp [charsLt] at h
      | cons d ds => rfl
  | cons c cs ih =>
      cases b with
      | nil => simp [charsLt] at h
      | cons d ds =>
          rcases (charsLt_cons_iff c d cs ds).mp h with hlt | ⟨hcd, hrest⟩
          · have h2 : ¬ d < c := lt_asymm hlt
            have h3 : d ≠ c := ne_of_lt hlt |>.symm
            simp [charsLt, h2, hlt, h3]
          · subst hcd
            simp [charsLt, ih ds hrest]

theorem charsLt_trans (a b c : List Char) (hab : charsLt a b = true)
    (hbc : charsLt b c = true) : charsLt a c = true := by
  induction a generalizing b c with
  | nil =>
      cases b with
      | nil => simp [charsLt] at hab
      | cons y ys =>
          cases c with
          | nil => simp [charsLt] at hbc
          | cons z zs => rfl
  | cons x xs ih =>
      cases b with
      | nil => simp [charsLt] at hab
      | cons y ys =>
          cases c with
          | nil => simp [charsLt] at hbc
          | cons z zs =>
              rcases (charsLt_cons_iff x y xs ys).mp hab with h1 | ⟨h1, h1r⟩ <;>
                rcases (charsLt_cons_iff y z ys zs).mp hbc with h2 | ⟨h2, h2r⟩
              · exact (charsLt_cons_iff x z xs zs).mpr (Or.inl (lt_trans h1 h2))
              · subst h2
                exact (charsLt_cons_iff x y xs zs).mpr (Or.inl h1)
              · subst h1
                exact (charsLt_cons_iff x z xs zs).mpr (Or.inl h2)
              · subst h1
                subst h2
                exact (charsLt_cons_iff x x xs zs).mpr (Or.inr ⟨rfl, ih ys zs h1r h2r⟩)

theorem charsLt_conn (a b : List Char) (h1 : charsLt a b = false)
    (h2 : charsLt b a = false) : a = b := by
  induction a generalizing b with
  | nil =>
      cases b with
      | nil => rfl
      | cons y ys => simp [charsLt] at h1
  | cons x xs ih =>
      cases b with
      | nil => simp [charsLt] at h2
      | cons y ys =>
          by_cases hxy : x < y
          · simp [charsLt, hxy] at h1
          · by_cases hyx : y < x
            · simp [charsLt, hyx] at h2
            · have hx : x = y := le_antisymm (not_lt.mp hyx) (not_lt.mp hxy)
              subst hx
              simp only [charsLt, if_neg hxy, if_neg hyx] at h1 h2
              rw [ih ys h1 h2]

theorem strLt_irrefl (a : String) : strLt a a = false := charsLt_irrefl a.data

theorem strLt_asymm (a b : String) (h : strLt a b = true) : strLt b a = false :=
  charsLt_asymm _ _ h

theorem strLt_trans (a b c : String) (hab : strLt a b = true)
    (hbc : strLt b c = true) : strLt a c = true :=
  charsLt_trans _ _ _ hab hbc

theorem strLt_conn (a b : String) (h1 : strLt a b = false)
    (h2 : strLt b a = false) : a = b :=
  String.ext_iff.mpr (charsLt_conn a.data b.data h1 h2)

theorem insertSorted_cons (heap : GroupId → GroupData) (x y : GroupId)
    (ys : List GroupId) (dup : String) :
    insertSorted heap x (y :: ys) dup =
      if strLt ((heap x).name) ((heap y).name) = true then
        (x :: y :: ys, if (heap x).name = (heap y).name then (heap x).name else dup)
      else
        ((y :: (insertSorted heap x ys
          (if (heap x).name = (heap y).name then (heap x).name else dup)).1),
         (insertSorted heap x ys
          (if (heap x).name = (heap y).name then (heap x).name else dup)).2) := rfl

theorem insertSorted_perm (heap : GroupId → GroupData) (x : GroupId) :
    ∀ (l : List GroupId) (d : String), ((insertSorted heap x l d).1).Perm (x :: l) := by
  intro l
  induction l with
  | nil => intro d; simp [insertSorted]
  | cons y ys ih =>
      intro d
      rw [insertSorted_cons]
      by_cases hlt : strLt ((heap x).name) ((heap y).name) = true
      · rw [if_pos hlt]
      · rw [if_neg hlt]
        dsimp only
        exact List.Perm.trans (List.Perm.cons y (ih _)) (List.Perm.swap x y ys)

theorem insertSorted_sorted (heap : GroupId → GroupData) (x : GroupId) :
    ∀ (l : List GroupId) (d : String), SortedByName heap l →
      SortedByName heap (insertSorted heap x l d).1 := by
  intro l
  induction l with
  | nil => intro d _; simp [insertSorted, SortedByName]
  | cons y ys ih =>
      intro d hs
      have hy := List.pairwise_cons.mp hs
      rw [insertSorted_cons]
      by_cases hlt : strLt ((heap x).name) ((heap y).name) = true
      · rw [if_pos hlt]
        refine List.Pairwise.cons ?_ hs
        intro z hz
        rcases List.mem_cons.mp hz with hzy | hzys
        · subst hzy
          exact strLt_asymm _ _ hlt
        · cases hzx : strLt ((heap z).name) ((heap x).name) with
          | false => rfl
          | true =>
              have : strLt ((heap z).name) ((heap y).name) = true :=
                strLt_trans _ _ _ hzx hlt
              rw [hy.1 z hzys] at this
              cases this
      · rw [if_neg hlt]
        dsimp only
        have hltf : strLt ((heap x).name) ((heap y).name) = false := by
          simpa using hlt
        refine List.Pairwise.cons ?_ (ih _ hy.2)
        intro z hz
        have hz2 : z ∈ x :: ys := (insertSorted_perm heap x ys _).mem_iff.mp hz
        rcases List.mem_cons.mp hz2 with hzx | hzys
        · subst hzx
          exact hltf
        · exact hy.1 z hzys

theorem insertSorted_dup_not_mem (heap : GroupId → GroupData) (x : GroupId) :
    ∀ (l : List GroupId) (d : String), (heap x).name ∉ heapNames heap l →
      (insertSorted heap x l d).2 = d := by
  intro l
  induction l with
  | nil => intro d _; rfl
  | cons y ys ih =>
      intro d hmem
      have hny : ¬ (heap x).name = (heap y).name := by
        intro h
        exact hmem (by simp [heapNames, h])
      have hys : (heap x).name ∉ heapNames heap ys := by
        intro h
        exact hmem (by simp [heapNames] at h ⊢; exact Or.inr h)
      rw [insertSorted_cons]
      by_cases hlt : strLt ((heap x).name) ((heap y).name) = true
      · rw [if_pos hlt]
        simp [hny]
      · rw [if_neg hlt]
        dsimp only
        rw [if_neg hny]
        exact ih d hys

theorem insertSorted_dup_mem (heap : GroupId → GroupData) (x : GroupId) :
    ∀ (l : List GroupId) (d : String), SortedByName heap l →
      (heap x).name ∈ heapNames heap l →
      (insertSorted heap x l d).2 = (heap x).name := by
  intro l
  induction l with
  | nil => intro d _ hmem; simp [heapNames] at hmem
  | cons y ys ih =>
      intro d hs hmem
      have hy := List.pairwise_cons.mp hs
      rw [insertSorted_cons]
      by_cases hny : (heap x).name = (heap y).name
      · have hlt : strLt ((heap x).name) ((heap y).name) = false := by
          rw [hny]
          exact strLt_irrefl _
        rw [if_neg (by simp [hlt])]
        dsimp only
        rw [if_pos hny]
        by_cases hin : (heap x).name ∈ heapNames heap ys
        · exact ih _ hy.2 hin
        · exact insertSorted_dup_not_mem heap x ys _ hin
      · have hin : (heap x).name ∈ heapNames heap ys := by
          simp only [heapNames, List.map_cons, List.mem_cons] at hmem
          rcases hmem with h | h
          · exact absurd h hny
          · simpa [heapNames] using h
        by_cases hlt : strLt ((heap x).name) ((heap y).name) = true
        · obtain ⟨z, hzys, hzname⟩ := List.mem_map.mp hin
          have := hy.1 z hzys
          rw [hzname] at this
          rw [this] at hlt
          cases hlt
        · rw [if_neg hlt]
          dsimp only
          rw [if_neg hny]
          exact ih _ hy.2 hin

theorem heapNames_perm (heap : GroupId → GroupData) {l l' : List GroupId}
    (h : l.Perm l') : (heapNames heap l).Perm (heapNames heap l') :=
  h.map _

theorem heapNames_append (heap : GroupId → GroupData) (l l' : List GroupId) :
    heapNames heap (l ++ l') = heapNames heap l ++ heapNames heap l' :=
  List.map_append _ _ _

theorem sortLoop_perm (heap : GroupId → GroupData) :
    ∀ (xs acc : List GroupId) (d : String),
      ((sortLoop heap xs acc d).1).Perm (xs ++ acc) := by
  intro xs
  induction xs with
  | nil => intro acc d; simp [sortLoop]
  | cons x xs ih =>
      intro acc d
      show ((sortLoop heap xs (insertSorted heap x acc d).1
        (insertSorted heap x acc d).2).1).Perm _
      refine List.Perm.trans (ih _ _) ?_
      refine List.Perm.trans (List.Perm.append_left xs (insertSorted_perm heap x acc d)) ?_
      exact List.perm_middle

theorem sortLoop_sorted (heap : GroupId → GroupData) :
    ∀ (xs acc : List GroupId) (d : String), SortedByName heap acc →
      SortedByName heap (sortLoop heap xs acc d).1 := by
  intro xs
  induction xs with
  | nil => intro acc d hs; exact hs
  | cons x xs ih =>
      intro acc d hs
      exact ih _ _ (insertSorted_sorted heap x acc d hs)

theorem sortLoop_dup_nodup (heap : GroupId → GroupData) :
    ∀ (xs acc : List GroupId) (d : String),
      (heapNames heap (acc ++ xs)).Nodup → (sortLoop heap xs acc d).2 = d := by
  intro xs
  induction xs with
  | nil => intro acc d _; rfl
  | cons x xs ih =>
      intro acc d hnd
      rw [heapNames_append] at hnd
      have hx : (heap x).name ∉ heapNames heap acc := by
        intro hmem
        have hd := (List.nodup_append.mp hnd).2.2
        exact hd hmem (by simp [heapNames])
      show (sortLoop heap xs (insertSorted heap x acc d).1
        (insertSorted heap x acc d).2).2 = d
      rw [insertSorted_dup_not_mem heap x acc d hx]
      apply ih
      have hperm : (heapNames heap ((insertSorted heap x acc d).1 ++ xs)).Perm
          (heapNames heap (acc ++ (x :: xs))) := by
        rw [heapNames_append, heapNames_append]
        refine List.Perm.trans (List.Perm.append_right _
          (heapNames_perm heap (insertSorted_perm heap x acc d))) ?_
        simp only [heapNames, List.map_cons, List.cons_append]
        exact List.perm_middle.symm
      refine hperm.nodup_iff.mpr ?_
      rw [heapNames_append]
      exact hnd


theorem sortLoop_names_perm (heap : GroupId → GroupData) (x : GroupId)
    (acc xs : List GroupId) (d : String) :
    (heapNames heap ((insertSorted heap x acc d).1 ++ xs)).Perm
      (heapNames heap (acc ++ (x :: xs))) := by
  rw [heapNames_append, heapNames_append]
  refine List.Perm.trans (List.Perm.append_right _
    (heapNames_perm heap (insertSorted_perm heap x acc d))) ?_
  simp only [heapNames, List.map_cons, List.cons_append]
  exact List.perm_middle.symm

theorem sortLoop_dup_dup (heap : GroupId → GroupData) :
    ∀ (xs acc : List GroupId) (d : String), SortedByName heap acc →
      List.count "" (heapNames heap (acc ++ xs)) ≤ 1 →
      (¬ (heapNames heap acc).Nodup → d ≠ "") →
      ¬ (heapNames heap (acc ++ xs)).Nodup →
      (sortLoop heap xs acc d).2 ≠ "" := by
  intro xs
  induction xs with
  | nil =>
      intro acc d _ _ hinv hnd
      rw [List.append_nil] at hnd
      exact hinv hnd
  | cons x xs ih =>
      intro acc d hs hc hinv hnd
      show (sortLoop heap xs (insertSorted heap x acc d).1
        (insertSorted heap x acc d).2).2 ≠ ""
      have hp2 : (heapNames heap (insertSorted heap x acc d).1).Perm
          ((heap x).name :: heapNames heap acc) := by
        have := heapNames_perm heap (insertSorted_perm heap x acc d)
        simpa [heapNames] using this
      by_cases hmem : (heap x).name ∈ heapNames heap acc
      · have hd1 : (insertSorted heap x acc d).2 = (heap x).name :=
          insertSorted_dup_mem heap x acc d hs hmem
        have hnx : (heap x).name ≠ "" := by
          intro h0
          have h1 : 0 < List.count "" (heapNames heap acc) :=
            List.count_pos_iff.mpr (h0 ▸ hmem)
          have h2 : List.count "" (heapNames heap (acc ++ (x :: xs))) =
              List.count "" (heapNames heap acc) +
              List.count "" (heapNames heap (x :: xs)) := by
            rw [heapNames_append, List.count_append]
          have h3 : 0 < List.count "" (heapNames heap (x :: xs)) := by
            refine List.count_pos_iff.mpr ?_
            simp [heapNames, h0]
          omega
        apply ih
        · exact insertSorted_sorted heap x acc d hs
        · rw [(sortLoop_names_perm heap x acc xs d).count_eq ""]
          exact hc
        · intro _
          rw [hd1]
          exact hnx
        · intro hcon
          rw [heapNames_append] at hcon
          have hleft := hcon.of_append_left
          have := (hp2.nodup_iff).mp hleft
          exact (List.nodup_cons.mp this).1 hmem
      · have hd1 : (insertSorted heap x acc d).2 = d :=
          insertSorted_dup_not_mem heap x acc d hmem
        apply ih
        · exact insertSorted_sorted heap x acc d hs
        · rw [(sortLoop_names_perm heap x acc xs d).count_eq ""]
          exact hc
        · intro hcon
          rw [hd1]
          apply hinv
          intro hacc
          exact hcon ((hp2.nodup_iff).mpr (List.nodup_cons.mpr ⟨hmem, hacc⟩))
        · intro hcon
          exact hnd ((sortLoop_names_perm heap x acc xs d).nodup_iff.mp hcon)

theorem allModules_ok_of_nodup (s : SimpleNameInterface)
    (hnd : (storedNames s).Nodup) :
    ∃ l, allModules s = Except.ok l ∧ l.Perm (s.modules.map (fun p => p.2)) ∧
      (heapNames s.heap l).Pairwise (fun a b => strLt a b = true) := by
  have hdup : (sortLoop s.heap (s.modules.map (fun p => p.2)) [] "").2 = "" := by
    apply sortLoop_dup_nodup
    simpa [storedNames] using hnd
  have hperm : ((sortLoop s.heap (s.modules.map (fun p => p.2)) [] "").1).Perm
      (s.modules.map (fun p => p.2)) := by
    have := sortLoop_perm s.heap (s.modules.map (fun p => p.2)) [] ""
    simpa using this
  refine ⟨(sortLoop s.heap (s.modules.map (fun p => p.2)) [] "").1, ?_, hperm, ?_⟩
  · simp [allModules, hdup]
  · have hsorted : SortedByName s.heap
        (sortLoop s.heap (s.modules.map (fun p => p.2)) [] "").1 :=
      sortLoop_sorted s.heap _ [] "" List.Pairwise.nil
    have hndres : (heapNames s.heap
        (sortLoop s.heap (s.modules.map (fun p => p.2)) [] "").1).Nodup := by
      refine ((heapNames_perm s.heap hperm).nodup_iff).mpr ?_
      simpa [storedNames] using hnd
    have hpair2 := List.pairwise_map.mp hndres
    simp only [heapNames]
    rw [List.pairwise_map]
    refine List.Pairwise.imp ?_ (hsorted.and hpair2)
    intro a b hab
    cases hq : strLt ((s.heap a).name) ((s.heap b).name) with
    | true => rfl
    | false => exact absurd (strLt_conn _ _ hq hab.1) hab.2

theorem allModules_error_of_dup (s : SimpleNameInterface)
    (hc : List.count "" (storedNames s) ≤ 1)
    (hdup : ¬ (storedNames s).Nodup) :
    ∃ msg, allModules s = Except.error msg := by
  have hne : (sortLoop s.heap (s.modules.map (fun p => p.2)) [] "").2 ≠ "" := by
    apply sortLoop_dup_dup
    · exact List.Pairwise.nil
    · simpa [storedNames] using hc
    · intro hcon
      simp [heapNames] at hcon
    · simpa [storedNames] using hdup
  refine ⟨ "Duplicate moduleGroup name " ++
    goQuote (sortLoop s.heap (s.modules.map (fun p => p.2)) [] "").2, ?_⟩
  simp [allModules, hne]

theorem registerList_spec : ∀ (gs : List GroupId) (s : SimpleNameInterface),
    (registerList s gs).2 = true →
    (registerList s gs).1.heap = s.heap ∧
    (registerList s gs).1.skippedModules = s.skippedModules ∧
    (registerList s gs).1.modules =
      s.modules ++ gs.map (fun g => ((s.heap g).name, g)) ∧
    ((s.modules.map (fun p => p.1)).Nodup →
      (((registerList s gs).1.modules).map (fun p => p.1)).Nodup) := by
  intro gs
  induction gs with
  | nil =>
      intro s _
      exact ⟨rfl, rfl, by simp [registerList], fun h => h⟩
  | cons g gs ih =>
      intro s hok
      have hok' : ((newModule s g).2.1.isEmpty &&
          (registerList (newModule s g).2.2 gs).2) = true := hok
      rw [Bool.and_eq_true] at hok'
      obtain ⟨hemp, hrest⟩ := hok'
      cases hl : mapLookup s.modules ((s.heap g).name) with
      | some prev =>
          have herr : (newModule s g).2.1 =
              [newModuleErr ((s.heap g).name) (firstModulePos (s.heap prev))] := by
            unfold newModule
            rw [hl]
          rw [herr] at hemp
          simp at hemp
      | none =>
          have hstate : (newModule s g).2.2 =
              { s with modules := s.modules ++ [(((s.heap g).name), g)] } := by
            unfold newModule
            rw [hl]
            dsimp only
            rw [mapInsert_not_mem _ _ _ hl]
          obtain ⟨ihh, ihsk, ihm, ihnd⟩ := ih (newModule s g).2.2 hrest
          have hkeys : ((newModule s g).2.2.modules.map (fun p => p.1)).Nodup →
              (((registerList s (g :: gs)).1.modules).map (fun p => p.1)).Nodup :=
            ihnd
          refine ⟨?_, ?_, ?_, ?_⟩
          · show (registerList (newModule s g).2.2 gs).1.heap = s.heap
            rw [ihh, hstate]
          · show (registerList (newModule s g).2.2 gs).1.skippedModules =
              s.skippedModules
            rw [ihsk, hstate]
          · show (registerList (newModule s g).2.2 gs).1.modules = _
            rw [ihm, hstate]
            simp [List.append_assoc]
          · intro hnd
            refine hkeys ?_
            rw [hstate]
            have hn : (s.heap g).name ∉ s.modules.map (fun p => p.1) :=
              (mapLookup_none_iff _ _).mp hl
            simp [List.nodup_append, hnd, hn]

/-- C5: after any sequence of registrations that all succeeded, regardless of
the order in which the names were registered, `AllModules` returns exactly the
registered groups, sorted strictly ascending by name in byte/lexicographic
string order. -/
theorem registerList_allModules_sorted (h : GroupId → GroupData) (gs : List GroupId)
    (hok : (registerList (mkSimpleNameInterface h) gs).2 = true) :
    ∃ l, allModules (registerList (mkSimpleNameInterface h) gs).1 = Except.ok l ∧
      l.Perm gs ∧ (heapNames h l).Pairwise (fun a b => strLt a b = true) := by
  obtain ⟨hh, hsk, hm, hnd⟩ := registerList_spec gs (mkSimpleNameInterface h) hok
  have hm' : (registerList (mkSimpleNameInterface h) gs).1.modules =
      gs.map (fun g => ((h g).name, g)) := by
    simpa [mkSimpleNameInterface] using hm
  have hkeys : ((registerList (mkSimpleNameInterface h) gs).1.modules.map
      (fun p => p.1)).Nodup := by
    refine hnd ?_
    simp [mkSimpleNameInterface]
  have hvals : (registerList (mkSimpleNameInterface h) gs).1.modules.map
      (fun p => p.2) = gs := by
    rw [hm']
    rw [List.map_map]
    exact List.map_id gs
  have hkeys' : ((registerList (mkSimpleNameInterface h) gs).1.modules.map
      (fun p => p.1)) = gs.map (fun g => (h g).name) := by
    rw [hm']
    simp [List.map_map]
  have hsn : (storedNames (registerList (mkSimpleNameInterface h) gs).1).Nodup := by
    have hrw : storedNames (registerList (mkSimpleNameInterface h) gs).1 =
        gs.map (fun g => (h g).name) := by
      unfold storedNames heapNames
      rw [hvals, hh]
      rfl
    rw [hrw]
    rw [hkeys'] at hkeys
    exact hkeys
  obtain ⟨l, hok2, hperm, hpair⟩ := allModules_ok_of_nodup _ hsn
  rw [hvals] at hperm
  rw [hh] at hpair
  exact ⟨l, hok2, hperm, hpair⟩

/-- C5 witness: registering `zeta`, `alpha`, `mu` in that order (groups 2, 0,
3 of `wHeap`) succeeds and enumerates sorted strictly ascending. -/
theorem registerList_allModules_sorted_witness :
    ∃ l, allModules (registerList (mkSimpleNameInterface wHeap) [2, 0, 3]).1 =
      Except.ok l ∧ l.Perm [2, 0, 3] ∧
      (heapNames wHeap l).Pairwise (fun a b => strLt a b = true) :=
  registerList_allModules_sorted wHeap [2, 0, 3] (by decide)

/-- C6 counterexample: a storage state in which two live groups share the
empty name. `AllModules` returns a result instead of panicking, because the
`duplicateName` sentinel for no-duplicate-seen is itself the empty string, so
the claim as stated is false for this input. -/
theorem allModules_dup_detection_cex :
    (dupStateEmpty.heap 0).name = (dupStateEmpty.heap 1).name ∧
    0 ∈ dupStateEmpty.modules.map (fun p => p.2) ∧
    1 ∈ dupStateEmpty.modules.map (fun p => p.2) ∧
    allModules dupStateEmpty = Except.ok [0, 1] :=
  ⟨rfl, by decide, by decide, rfl⟩

/-- C6 (amended): provided at most one stored group is named by the empty
string, `AllModules` on a storage holding two live groups that share one name
aborts with the duplicate-name panic instead of returning, and under the
uniqueness invariant (no two stored groups share a name) it always returns
normally. -/
theorem allModules_dup_panic (s : SimpleNameInterface)
    (hc : List.count "" (storedNames s) ≤ 1) :
    ((storedNames s).Nodup → ∃ l, allModules s = Except.ok l) ∧
    (¬ (storedNames s).Nodup → ∃ msg, allModules s = Except.error msg) := by
  constructor
  · intro hnd
    obtain ⟨l, hl, _, _⟩ := allModules_ok_of_nodup s hnd
    exact ⟨l, hl⟩
  · intro hdup
    exact allModules_error_of_dup s hc hdup

/-- C6 witness: two groups sharing the non-empty name `x` make `AllModules`
panic. -/
theorem allModules_dup_panic_witness :
    ∃ msg, allModules dupStateX = Except.error msg :=
  (allModules_dup_panic dupStateX (by decide)).2 (by decide)

end Blueprint
